import Mathlib

/-!
Verification of the scripted narrated-recording session logic of the
KYC-Video repository (`static/js/recording_assistant.js`, the simplified
"no script display" variant).  The module-level mutable variables of that
file become the fields of `KYC.SessionState`; each JavaScript function
becomes a Lean function `SessionState → SessionState` (parameterized by
the data the browser would supply: fetch results, camera frames, clock
readings).  Asynchronous callbacks are modelled by explicit events: the
`onend`/`onerror` callback installed by `speakText` is recorded in the
`pending` field (the closure's captured data) and fired by `onSpeechEnd`.
-/

namespace KYC

/-- One script line, as served by `/api/get-script`
(`{ text, group_with_next, capture_mode, action_required, auto_terminate }`).
`action_required` is `none` when the JSON field is null/absent. -/
structure Line where
  text : String
  group_with_next : Bool
  capture_mode : Bool
  action_required : Option String
  auto_terminate : Bool
deriving DecidableEq

/-- A script section: `{ title, auto_terminate, script_lines }`. -/
structure Section where
  title : String
  auto_terminate : Bool
  script_lines : List Line
deriving DecidableEq

/-- The whole script document: `{ sections: [...] }`. -/
structure Script where
  sections : List Section
deriving DecidableEq

/-- A captured document image: `{ type, timestamp, data }`.  `type` copies the
global `currentCaptureType`, which can still be null, hence `Option`. -/
structure CapturedImage where
  type : Option String
  timestamp : Nat
  data : String
deriving DecidableEq

/-- The data captured by the completion callback that `playNextLine` passes to
`speakText` (the closure over `lastLineIndex`, `isAutoTerminate`,
`isCaptureMode`, `showDocument`). -/
structure Pending where
  lastLineIndex : Nat
  isAutoTerminate : Bool
  isCaptureMode : Bool
  showDocument : Bool
deriving DecidableEq

/-- The module-level mutable state of `recording_assistant.js`, plus the
DOM-visible bits the script drives (overlay/button visibility, alert dialogs)
and two ghost logs: `spokenLog` records, utterance by utterance, the
`(sectionIndex, lineIndex)` positions of every line handed to the speech
synthesizer, and `finalizeCount` counts how many times a recording was
finalized into a blob. -/
structure SessionState where
  scriptData : Option Script
  currentSectionIndex : Nat
  currentLineIndex : Nat
  isRecording : Bool
  /-- a MediaRecorder object exists (was constructed by `startRecording`) -/
  mediaRecorder : Bool
  /-- sizes of the buffered data chunks (`recordedChunks`) -/
  recordedChunks : List Nat
  /-- `stream` is non-null: webcam access was granted -/
  stream : Bool
  /-- the finalized artifact produced by `mediaRecorder.onstop` -/
  videoBlob : Option (List Nat)
  /-- the completion callback of the current utterance, if one may still fire -/
  pending : Option Pending
  isAutoPlaying : Bool
  capturedImages : List CapturedImage
  currentCaptureType : Option String
  videoOverlay : Bool
  captureOverlay : Bool
  documentIndicator : Bool
  captureStatus : Bool
  captureBtnVisible : Bool
  retakeBtnVisible : Bool
  captureNextBtnVisible : Bool
  documentText : String
  /-- messages shown to the user via `alert(...)` -/
  alerts : List String
  /-- ghost: positions of all lines spoken so far -/
  spokenLog : List (Nat × Nat)
  /-- ghost: the texts handed to `speechSynthesis.speak`, after substitution -/
  utterances : List String
  /-- ghost: number of times a recording was finalized -/
  finalizeCount : Nat
deriving DecidableEq

/-- The page's state right after load, before any event handler ran. -/
def initialState : SessionState where
  scriptData := none
  currentSectionIndex := 0
  currentLineIndex := 0
  isRecording := false
  mediaRecorder := false
  recordedChunks := []
  stream := false
  videoBlob := none
  pending := none
  isAutoPlaying := false
  capturedImages := []
  currentCaptureType := none
  videoOverlay := false
  captureOverlay := false
  documentIndicator := false
  captureStatus := false
  captureBtnVisible := false
  retakeBtnVisible := false
  captureNextBtnVisible := false
  documentText := ""
  alerts := []
  spokenLog := []
  utterances := []
  finalizeCount := 0

/-- Placeholder for the impossible out-of-bounds access
`groupedLines[groupedLines.length - 1]` on an empty array. -/
def defaultLine : Line := ⟨"", false, false, none, false⟩

/-- `loadScript`: fetches `/api/get-script`.  On success the parsed document is
stored in `scriptData`; on failure (`catch`) the error goes to `console.error`
only — no state change and nothing shown to the user. -/
def loadScript (fetchResult : Option Script) (s : SessionState) : SessionState :=
  match fetchResult with
  | some sc => { s with scriptData := some sc }
  | none => s

/-- `initializeWebcam`: on success the stream is attached; on failure the user
is alerted. -/
def initializeWebcam (ok : Bool) (s : SessionState) : SessionState :=
  if ok then { s with stream := true }
  else { s with alerts := s.alerts ++
    ["Could not access webcam. Please allow camera and microphone permissions and refresh the page."] }

/-- `hideAllOverlays`. -/
def hideAllOverlays (s : SessionState) : SessionState :=
  { s with videoOverlay := false, captureOverlay := false,
           documentIndicator := false, captureStatus := false }

/-- `stopRecording`.  Guarded by `mediaRecorder && isRecording`; inside the
guard: auto-play ends, `speechSynthesis.cancel()` is called (the in-flight
utterance is canceled, but its `onend`/`onerror` callback may still fire later
— the `onerror` handler also invokes the completion callback — so `pending`
is not cleared), the recorder is stopped and its `onstop` handler finalizes
`recordedChunks` into `videoBlob`, the timer stops, overlays are hidden,
fullscreen is exited, progress bars are filled (display only) and any
captured images are POSTed to the server (network only). -/
def stopRecording (s : SessionState) : SessionState :=
  if s.mediaRecorder && s.isRecording then
    hideAllOverlays
      { s with isAutoPlaying := false,
               isRecording := false,
               videoBlob := some s.recordedChunks,
               finalizeCount := s.finalizeCount + 1 }
  else s

/-- The loop body of `collectGroupedLines`: collect `{line, index}` pairs from
`idx` on, continuing past a line exactly when its `group_with_next` is true.
`fuel` bounds the iteration count; `collectGroupedLines` supplies
`lines.length - startIdx`, which the loop (which increments `idx` each pass
and stops at `lines.length`) never exhausts. -/
def collectGroupedLinesAux (lines : List Line) : Nat → Nat → List (Line × Nat)
  | _, 0 => []
  | idx, fuel + 1 =>
    match lines[idx]? with
    | none => []
    | some line =>
      if line.group_with_next then
        (line, idx) :: collectGroupedLinesAux lines (idx + 1) fuel
      else [(line, idx)]

/-- `collectGroupedLines`: all lines that should be spoken together, starting
at the given cursor position within the current section's lines. -/
def collectGroupedLines (lines : List Line) (startIdx : Nat) : List (Line × Nat) :=
  collectGroupedLinesAux lines startIdx (lines.length - startIdx)

/-- The `for (const item of groupedLines)` loop of `playNextLine` that scans
every line of the group for an `action_required` tag.  The accumulator is
`(showDocument, documentType, currentCaptureType)`; a tagged line overwrites
all three, so a later tag wins. -/
def docScan (items : List (Line × Nat))
    (acc : Bool × Option String × Option String) :
    Bool × Option String × Option String :=
  items.foldl
    (fun acc item =>
      if item.1.action_required = some "customer_shows_pan" then
        (true, some "pan", some "pan")
      else if item.1.action_required = some "customer_shows_aadhaar" then
        (true, some "aadhaar", some "aadhaar")
      else acc)
    acc

/-- The deterministic placeholder substitution performed by `speakText`
(each `String.replace` replaces every occurrence, like the `/g` regexes). -/
def substitutePlaceholders (t : String) : String :=
  ((((t.replace "[Customer Name]" "valued customer").replace
      "[Bank Name]" "our bank").replace
      "[Bank/NBFC Name]" "our organization").replace
      "[Read address]" "123 Main Street, Mumbai, Maharashtra, 400001")

/-- `speakText`: cancels any ongoing speech (the old `pending` is replaced),
substitutes placeholders, and speaks a new utterance whose `onend` and
`onerror` handlers both invoke the completion callback `p` (fired later by
`onSpeechEnd`). -/
def speakText (text : String) (p : Pending) (s : SessionState) : SessionState :=
  { s with pending := some p,
           utterances := s.utterances ++ [substitutePlaceholders text] }

def panPrompt : String := "📇 Show Your PAN Card"

def aadhaarPrompt : String := "📇 Show Your Aadhaar Card (Masked)"

/-- The body of `playNextLine` past the end-of-section checks: collect the
grouped lines, derive the unit's behavioral data (`isCaptureMode` from the
last line, the document scan over all lines, `isAutoTerminate` from the
owning section or the last line), update the progress bars (display only),
hide the overlays, and speak the combined text, registering the completion
callback. -/
def speakUnit (sec : Section) (s : SessionState) : SessionState :=
  let grouped := collectGroupedLines sec.script_lines s.currentLineIndex
  let last := grouped.getLastD (defaultLine, 0)
  let combinedText := String.intercalate ". " (grouped.map (fun item => item.1.text))
  let scan := docScan grouped (false, none, s.currentCaptureType)
  let s1 := hideAllOverlays s
  let s2 := { s1 with
    currentCaptureType := scan.2.2,
    documentText :=
      if scan.2.1 = some "pan" then panPrompt
      else if scan.2.1 = some "aadhaar" then aadhaarPrompt
      else s1.documentText,
    spokenLog := s1.spokenLog ++ grouped.map (fun item => (s.currentSectionIndex, item.2)) }
  speakText combinedText
    ⟨last.2, sec.auto_terminate || last.1.auto_terminate, last.1.capture_mode, scan.1⟩ s2

/-- The recursion of `playNextLine`: advancing past an exhausted section calls
`playNextLine` again.  Each such call increments `currentSectionIndex` and
only happens while it stays below `sections.length`, so the recursion depth
is bounded by the number of sections; `fuel` makes that bound explicit
(`playNextLine` supplies `sections.length + 1`, which is never exhausted). -/
def playNextLineAux : Nat → SessionState → SessionState
  | 0, s => s
  | fuel + 1, s =>
    match s.scriptData with
    | none => s
    | some script =>
      if s.isAutoPlaying = false then s
      else
        match script.sections[s.currentSectionIndex]? with
        | none => s
        | some sec =>
          if sec.script_lines.length ≤ s.currentLineIndex then
            let s1 := { s with currentSectionIndex := s.currentSectionIndex + 1,
                               currentLineIndex := 0 }
            if script.sections.length ≤ s1.currentSectionIndex then
              stopRecording (hideAllOverlays { s1 with isAutoPlaying := false })
            else playNextLineAux fuel s1
          else speakUnit sec s

/-- The number of sections of the loaded script (0 before a script loads). -/
def sectionsLength (s : SessionState) : Nat :=
  match s.scriptData with
  | none => 0
  | some script => script.sections.length

/-- `playNextLine`: returns at once unless a script is loaded and auto-play is
on; on an exhausted section advances to the next section (line index 0) and
recurses; with no section left it ends auto-play and stops the recording;
otherwise it speaks the next narration unit. -/
def playNextLine (s : SessionState) : SessionState :=
  playNextLineAux (sectionsLength s + 1) s

/-- The completion callback registered by `playNextLine`'s call to
`speakText`, fired by the utterance's `onend` (or `onerror`) handler: set
`currentLineIndex` to the group's last index, then either auto-terminate
(advance one more line and call `playNextLine`, which is expected to trigger
the end), open the capture overlay, or show the Next button.  Consuming
`pending` records that each utterance's callback fires at most once. -/
def onSpeechEnd (s : SessionState) : SessionState :=
  match s.pending with
  | none => s
  | some p =>
    let s1 := { s with pending := none, currentLineIndex := p.lastLineIndex }
    if p.isAutoTerminate then
      playNextLine { s1 with currentLineIndex := s1.currentLineIndex + 1 }
    else if p.isCaptureMode then
      let s2 := if p.showDocument then { s1 with documentIndicator := true } else s1
      { s2 with captureOverlay := true, captureBtnVisible := true,
                retakeBtnVisible := false, captureNextBtnVisible := false,
                captureStatus := false }
    else { s1 with videoOverlay := true }

/-- `handleNextQuestion` (the Next button): ignored unless auto-playing;
otherwise hide the overlays, advance one line and play the next unit. -/
def handleNextQuestion (s : SessionState) : SessionState :=
  if s.isAutoPlaying = false then s
  else playNextLine { (hideAllOverlays s) with currentLineIndex := s.currentLineIndex + 1 }

/-- `handleCaptureNext` (the Next button of the capture overlay): its body is
identical to `handleNextQuestion`. -/
def handleCaptureNext (s : SessionState) : SessionState :=
  if s.isAutoPlaying = false then s
  else playNextLine { (hideAllOverlays s) with currentLineIndex := s.currentLineIndex + 1 }

/-- `captureImage`: snapshot the current video frame (supplied by the browser
as `frame`, timestamped `now`) into `capturedImages`, tagged with the active
capture type, and flip the capture buttons. -/
def captureImage (now : Nat) (frame : String) (s : SessionState) : SessionState :=
  { s with capturedImages := s.capturedImages ++ [⟨s.currentCaptureType, now, frame⟩],
           captureStatus := true, captureBtnVisible := false,
           retakeBtnVisible := true, captureNextBtnVisible := true }

/-- `retakeImage`: `capturedImages.findIndex(img => img.type ===
currentCaptureType)` (the FIRST matching index, despite the variable name
`lastIndex` and the comment "Remove the last captured image of this type"),
then `splice(index, 1)`; finally reset the capture buttons. -/
def retakeImage (s : SessionState) : SessionState :=
  let s1 :=
    match s.capturedImages.findIdx? (fun img => img.type == s.currentCaptureType) with
    | some i => { s with capturedImages := s.capturedImages.eraseIdx i }
    | none => s
  { s1 with captureStatus := false, captureBtnVisible := true,
            retakeBtnVisible := false, captureNextBtnVisible := false }

/-- `startRecording`: without a stream, alert and return.  Otherwise reset the
chunk and image buffers, construct a fresh MediaRecorder (its
`ondataavailable`/`onstop` handlers are modelled by `onDataAvailable` and the
finalization inside `stopRecording`) and start it, start the timer, enter
fullscreen, switch auto-play on, reset the cursor to (0,0) and play the first
unit.  The `catch` branch (MediaRecorder construction failure) is
environment-dependent and not modelled. -/
def startRecording (s : SessionState) : SessionState :=
  if s.stream = false then
    { s with alerts := s.alerts ++ ["Please allow webcam access first and refresh the page."] }
  else
    playNextLine
      { s with recordedChunks := [], capturedImages := [],
               mediaRecorder := true, isRecording := true,
               isAutoPlaying := true,
               currentSectionIndex := 0, currentLineIndex := 0 }

/-- The recorder's `ondataavailable` handler: append the chunk when its size
is positive. -/
def onDataAvailable (size : Nat) (s : SessionState) : SessionState :=
  if 0 < size then { s with recordedChunks := s.recordedChunks ++ [size] } else s

/-- The discrete external events that drive the controller after a session
has started: the speech-completion callback, the two Next buttons, the Stop
button, and the capture-flow buttons. -/
inductive Event where
  | speechEnd : Event
  | userNext : Event
  | captureNext : Event
  | stopClick : Event
  | capture : Nat → String → Event
  | retake : Event
deriving DecidableEq

/-- Dispatch one event to its handler. -/
def step : Event → SessionState → SessionState
  | Event.speechEnd, s => onSpeechEnd s
  | Event.userNext, s => handleNextQuestion s
  | Event.captureNext, s => handleCaptureNext s
  | Event.stopClick, s => stopRecording s
  | Event.capture now frame, s => captureImage now frame s
  | Event.retake, s => retakeImage s

/-- Run a sequence of events. -/
def run (es : List Event) (s : SessionState) : SessionState :=
  es.foldl (fun s e => step e s) s

/-- One interaction cycle of a cooperating environment: the pending speech
completes, then the user presses whichever Next button is shown. -/
def cycle (s : SessionState) : SessionState :=
  let s1 := onSpeechEnd s
  if s1.captureOverlay then handleCaptureNext s1 else handleNextQuestion s1

/-- The session cursor. -/
def cursor (s : SessionState) : Nat × Nat :=
  (s.currentSectionIndex, s.currentLineIndex)

/-- Lexicographic order on cursors. -/
def cursorLe (a b : Nat × Nat) : Prop :=
  a.1 < b.1 ∨ (a.1 = b.1 ∧ a.2 ≤ b.2)

/-- The controller invariant relating an outstanding speech callback to the
cursor: the callback's anchor index is at or past the current line index,
and while auto-playing the cursor points at an existing section. -/
def Inv (s : SessionState) : Prop :=
  ∀ p, s.pending = some p →
    s.currentLineIndex ≤ p.lastLineIndex ∧
    (s.isAutoPlaying = true →
      ∃ script sec, s.scriptData = some script ∧
        script.sections[s.currentSectionIndex]? = some sec)

/-- A state in which the whole scripted session starts: the script loaded,
the webcam granted, and the Start button pressed. -/
def sessionStart (S : Script) : SessionState :=
  startRecording (loadScript (some S) (initializeWebcam true initialState))

/-- No auto-terminate flag anywhere in the script. -/
def NoAutoTerminate (S : Script) : Prop :=
  S.sections.all
    (fun sec => !sec.auto_terminate && sec.script_lines.all (fun l => !l.auto_terminate)) = true

/-- Position of the first line with `group_with_next = false` in a list
(modelled from the spec's grouping description, for comparison with
`collectGroupedLines`). -/
def firstUngrouped : List Line → Option Nat
  | [] => none
  | l :: ls =>
    if l.group_with_next then (firstUngrouped ls).map (· + 1) else some 0

/-- The index of the narration unit's anchor line per the spec: the first
line at or after `j` whose `group_with_next` is false, or the section's last
line when every remaining line has it true. -/
def specGroupEnd (lines : List Line) (j : Nat) : Nat :=
  match firstUngrouped (lines.drop j) with
  | some k => j + k
  | none => lines.length - 1

/-- Positions `(i, j), (i, j+1), ...` up to a section of `n` lines. -/
def sectionPos (i n j : Nat) : List (Nat × Nat) :=
  (List.range' j (n - j)).map (fun k => (i, k))

/-- All line positions of the given sections, the first starting at line `j`,
later ones at 0, with section indices from `i`. -/
def posFromAux : List Section → Nat → Nat → List (Nat × Nat)
  | [], _, _ => []
  | sec :: rest, i, j =>
    sectionPos i sec.script_lines.length j ++ posFromAux rest (i + 1) 0

/-- All line positions of script `S` at or after cursor `(i, j)`. -/
def posFrom (S : Script) (i j : Nat) : List (Nat × Nat) :=
  posFromAux (S.sections.drop i) i j

/-- Total number of script lines, `n1 + n2 + ... + nk`. -/
def totalLines (S : Script) : Nat :=
  (S.sections.map (fun sec => sec.script_lines.length)).sum

/-- A state with the script document erased, to compare two runs that differ
only in their (behaviorally equivalent) scripts. -/
def stripScript (s : SessionState) : SessionState :=
  { s with scriptData := none }

/-! ### Characterization of the grouping loop -/

lemma firstUngrouped_some_lt {ls : List Line} {k : Nat}
    (h : firstUngrouped ls = some k) : k < ls.length := by
  induction ls generalizing k with
  | nil => simp [firstUngrouped] at h
  | cons l ls ih =>
    simp only [firstUngrouped] at h
    by_cases hg : l.group_with_next = true
    · rw [if_pos hg] at h
      rcases Option.map_eq_some'.mp h with ⟨k0, hk0, hfk⟩
      have := ih hk0
      simp only [List.length_cons]
      omega
    · rw [if_neg hg] at h
      cases h
      simp

lemma specGroupEnd_bounds {lines : List Line} {j : Nat} (hj : j < lines.length) :
    j ≤ specGroupEnd lines j ∧ specGroupEnd lines j < lines.length := by
  cases h : firstUngrouped (lines.drop j) with
  | none => simp [specGroupEnd, h]; omega
  | some k =>
    have hk := firstUngrouped_some_lt h
    rw [List.length_drop] at hk
    simp [specGroupEnd, h]
    omega

lemma specGroupEnd_stop {lines : List Line} {j : Nat} {l : Line}
    (hj : lines[j]? = some l) (hg : l.group_with_next = false) :
    specGroupEnd lines j = j := by
  obtain ⟨hlt, hget⟩ := List.getElem?_eq_some_iff.mp hj
  have hdrop : lines.drop j = l :: lines.drop (j + 1) := by
    rw [List.drop_eq_getElem_cons hlt, hget]
  unfold specGroupEnd
  rw [hdrop]
  simp [firstUngrouped, hg]

lemma specGroupEnd_cont {lines : List Line} {j : Nat} {l : Line}
    (hj : lines[j]? = some l) (hg : l.group_with_next = true)
    (hlt1 : j + 1 < lines.length) :
    specGroupEnd lines j = specGroupEnd lines (j + 1) := by
  obtain ⟨hlt, hget⟩ := List.getElem?_eq_some_iff.mp hj
  have hdrop : lines.drop j = l :: lines.drop (j + 1) := by
    rw [List.drop_eq_getElem_cons hlt, hget]
  cases h : firstUngrouped (lines.drop (j + 1)) with
  | none => simp [specGroupEnd, hdrop, firstUngrouped, hg, h]
  | some k => simp [specGroupEnd, hdrop, firstUngrouped, hg, h]; omega

lemma specGroupEnd_last {lines : List Line} {j : Nat} {l : Line}
    (hj : lines[j]? = some l) (hg : l.group_with_next = true)
    (hlast : j + 1 = lines.length) :
    specGroupEnd lines j = j := by
  obtain ⟨hlt, hget⟩ := List.getElem?_eq_some_iff.mp hj
  have hdrop : lines.drop j = l :: lines.drop (j + 1) := by
    rw [List.drop_eq_getElem_cons hlt, hget]
  have hnil : lines.drop (j + 1) = [] := List.drop_eq_nil_of_le (le_of_eq hlast.symm)
  unfold specGroupEnd
  rw [hdrop, hnil]
  simp [firstUngrouped, hg]
  omega

lemma collectGroupedLinesAux_oob {lines : List Line} {idx : Nat}
    (h : lines.length ≤ idx) : ∀ fuel, collectGroupedLinesAux lines idx fuel = [] := by
  intro fuel
  cases fuel with
  | zero => rfl
  | succ fuel => simp [collectGroupedLinesAux, List.getElem?_eq_none h]

lemma collectGroupedLinesAux_spec {lines : List Line} :
    ∀ fuel j, lines.length - j ≤ fuel → j < lines.length →
      collectGroupedLinesAux lines j fuel =
        (List.range' j (specGroupEnd lines j + 1 - j)).map
          (fun k => (lines.getD k defaultLine, k)) := by
  intro fuel
  induction fuel with
  | zero => intro j hf hj; omega
  | succ fuel ih =>
    intro j hf hj
    have hget : lines[j]? = some lines[j] := List.getElem?_eq_getElem hj
    have hgetD : lines.getD j defaultLine = lines[j] := by
      rw [List.getD_eq_getElem?_getD, hget]; rfl
    by_cases hg : lines[j].group_with_next = true
    · by_cases hlt1 : j + 1 < lines.length
      · have he := specGroupEnd_cont hget hg hlt1
        have hb := specGroupEnd_bounds hlt1
        have hsplit : specGroupEnd lines j + 1 - j = (specGroupEnd lines (j + 1) + 1 - (j + 1)) + 1 := by
          omega
        rw [show collectGroupedLinesAux lines j (fuel + 1) =
              (lines[j], j) :: collectGroupedLinesAux lines (j + 1) fuel by
            simp [collectGroupedLinesAux, hget, hg]]
        rw [ih (j + 1) (by omega) hlt1, hsplit, List.range'_succ, List.map_cons, hgetD]
      · have hlast : j + 1 = lines.length := by omega
        have he := specGroupEnd_last hget hg hlast
        rw [show collectGroupedLinesAux lines j (fuel + 1) =
              (lines[j], j) :: collectGroupedLinesAux lines (j + 1) fuel by
            simp [collectGroupedLinesAux, hget, hg]]
        rw [collectGroupedLinesAux_oob (le_of_eq hlast.symm) fuel, he]
        simp [List.range'_succ, hget]
    · have hg' : lines[j].group_with_next = false := by
        revert hg; cases lines[j].group_with_next <;> simp
      have he := specGroupEnd_stop hget hg'
      rw [show collectGroupedLinesAux lines j (fuel + 1) = [(lines[j], j)] by
            simp [collectGroupedLinesAux, hget, hg']]
      rw [he]
      simp [List.range'_succ, hget]

/-- The grouping loop computes exactly the consecutive slice from the cursor
through the spec's anchor position. -/
lemma collectGroupedLines_spec {lines : List Line} {j : Nat} (hj : j < lines.length) :
    collectGroupedLines lines j =
      (List.range' j (specGroupEnd lines j + 1 - j)).map
        (fun k => (lines.getD k defaultLine, k)) :=
  collectGroupedLinesAux_spec (lines.length - j) j (le_refl _) hj

lemma collectGroupedLines_getLastD {lines : List Line} {j : Nat} (hj : j < lines.length) :
    (collectGroupedLines lines j).getLastD (defaultLine, 0) =
      (lines.getD (specGroupEnd lines j) defaultLine, specGroupEnd lines j) := by
  have hb := specGroupEnd_bounds hj
  rw [collectGroupedLines_spec hj]
  rw [show specGroupEnd lines j + 1 - j = (specGroupEnd lines j - j) + 1 by omega]
  rw [List.range'_1_concat, List.map_append]
  rw [show j + (specGroupEnd lines j - j) = specGroupEnd lines j by omega]
  simp [List.getLastD_concat]

lemma collectGroupedLines_positions {lines : List Line} {j : Nat} (hj : j < lines.length)
    (i : Nat) :
    (collectGroupedLines lines j).map (fun item => (i, item.2)) =
      (List.range' j (specGroupEnd lines j + 1 - j)).map (fun k => (i, k)) := by
  rw [collectGroupedLines_spec hj, List.map_map]
  rfl

/-! ### Unfolding lemmas for playNextLine -/

lemma playNextLineAux_oor {s : SessionState}
    (h : sectionsLength s < s.currentSectionIndex) :
    ∀ fuel, playNextLineAux fuel s = s := by
  intro fuel
  cases fuel with
  | zero => rfl
  | succ fuel =>
    cases hs : s.scriptData with
    | none => simp [playNextLineAux, hs]
    | some script =>
      have hK : sectionsLength s = script.sections.length := by simp [sectionsLength, hs]
      have hnone : script.sections[s.currentSectionIndex]? = none :=
        List.getElem?_eq_none (by omega)
      by_cases hAP : s.isAutoPlaying = false
      · simp [playNextLineAux, hs, hAP]
      · simp [playNextLineAux, hs, hAP, hnone]

lemma playNextLineAux_congr : ∀ (f g : Nat) (s : SessionState),
    sectionsLength s + 1 - s.currentSectionIndex ≤ f →
    sectionsLength s + 1 - s.currentSectionIndex ≤ g →
    playNextLineAux f s = playNextLineAux g s := by
  intro f
  induction f with
  | zero =>
    intro g s hf hg
    have h : sectionsLength s < s.currentSectionIndex := by omega
    rw [playNextLineAux_oor h g]
    rfl
  | succ f ih =>
    intro g s hf hg
    by_cases hoor : sectionsLength s < s.currentSectionIndex
    · rw [playNextLineAux_oor hoor, playNextLineAux_oor hoor]
    · obtain ⟨g', rfl⟩ : ∃ g', g = g' + 1 := ⟨g - 1, by omega⟩
      cases hs : s.scriptData with
      | none => simp [playNextLineAux, hs]
      | some script =>
        by_cases hAP : s.isAutoPlaying = false
        · simp [playNextLineAux, hs, hAP]
        · cases hsec : script.sections[s.currentSectionIndex]? with
          | none => simp [playNextLineAux, hs, hAP, hsec]
          | some sec =>
            by_cases hend : sec.script_lines.length ≤ s.currentLineIndex
            · by_cases hlast : script.sections.length ≤ s.currentSectionIndex + 1
              · simp [playNextLineAux, hs, hAP, hsec, hend, hlast]
              · have hAPt : s.isAutoPlaying = true := by
                  revert hAP; cases s.isAutoPlaying <;> simp
                have hK : sectionsLength s = script.sections.length := by
                  simp [sectionsLength, hs]
                rw [hK] at hf hg
                have hrec : playNextLineAux f
                      { s with currentSectionIndex := s.currentSectionIndex + 1,
                               currentLineIndex := 0 } =
                    playNextLineAux g'
                      { s with currentSectionIndex := s.currentSectionIndex + 1,
                               currentLineIndex := 0 } := by
                  apply ih
                  · simp only [sectionsLength, hs]
                    omega
                  · simp only [sectionsLength, hs]
                    omega
                rw [hs, hAPt] at hrec
                simp [playNextLineAux, hs, hAP, hsec, hend, hlast, hrec]
            · simp [playNextLineAux, hs, hAP, hsec, hend]

lemma playNextLine_eq_aux {s : SessionState} {f : Nat}
    (hf : sectionsLength s + 1 - s.currentSectionIndex ≤ f) :
    playNextLine s = playNextLineAux f s :=
  playNextLineAux_congr (sectionsLength s + 1) f s (by omega) hf

lemma playNextLine_no_script {s : SessionState} (h : s.scriptData = none) :
    playNextLine s = s := by
  simp [playNextLine, playNextLineAux, h]

lemma playNextLine_not_playing {s : SessionState} (h : s.isAutoPlaying = false) :
    playNextLine s = s := by
  cases hs : s.scriptData <;> simp [playNextLine, playNextLineAux, hs, h]

lemma playNextLine_speak {s : SessionState} {script : Script} {sec : Section}
    (hs : s.scriptData = some script) (hAP : s.isAutoPlaying = true)
    (hsec : script.sections[s.currentSectionIndex]? = some sec)
    (hlt : s.currentLineIndex < sec.script_lines.length) :
    playNextLine s = speakUnit sec s := by
  have hend : ¬ sec.script_lines.length ≤ s.currentLineIndex := by omega
  simp [playNextLine, playNextLineAux, hs, hAP, hsec, hend]

lemma playNextLine_advance {s : SessionState} {script : Script} {sec : Section}
    (hs : s.scriptData = some script) (hAP : s.isAutoPlaying = true)
    (hsec : script.sections[s.currentSectionIndex]? = some sec)
    (hend : sec.script_lines.length ≤ s.currentLineIndex)
    (hmore : s.currentSectionIndex + 1 < script.sections.length) :
    playNextLine s = playNextLine
      { s with currentSectionIndex := s.currentSectionIndex + 1, currentLineIndex := 0 } := by
  have hlast : ¬ script.sections.length ≤ s.currentSectionIndex + 1 := by omega
  have hstep : playNextLine s = playNextLineAux (sectionsLength s)
      { s with currentSectionIndex := s.currentSectionIndex + 1, currentLineIndex := 0 } := by
    simp [playNextLine, playNextLineAux, hs, hAP, hsec, hend, hlast]
  rw [hstep]
  exact (playNextLine_eq_aux (by simp only [sectionsLength, hs]; omega)).symm

lemma playNextLine_terminal {s : SessionState} {script : Script} {sec : Section}
    (hs : s.scriptData = some script) (hAP : s.isAutoPlaying = true)
    (hsec : script.sections[s.currentSectionIndex]? = some sec)
    (hend : sec.script_lines.length ≤ s.currentLineIndex)
    (hlast : script.sections.length ≤ s.currentSectionIndex + 1) :
    playNextLine s = stopRecording (hideAllOverlays
      { s with currentSectionIndex := s.currentSectionIndex + 1, currentLineIndex := 0,
               isAutoPlaying := false }) := by
  simp [playNextLine, playNextLineAux, hs, hAP, hsec, hend, hlast]

/-! ### Field lemmas -/

lemma speakUnit_scriptData (sec : Section) (s : SessionState) :
    (speakUnit sec s).scriptData = s.scriptData := rfl

lemma speakUnit_isAutoPlaying (sec : Section) (s : SessionState) :
    (speakUnit sec s).isAutoPlaying = s.isAutoPlaying := rfl

lemma speakUnit_isRecording (sec : Section) (s : SessionState) :
    (speakUnit sec s).isRecording = s.isRecording := rfl

lemma speakUnit_mediaRecorder (sec : Section) (s : SessionState) :
    (speakUnit sec s).mediaRecorder = s.mediaRecorder := rfl

lemma speakUnit_currentSectionIndex (sec : Section) (s : SessionState) :
    (speakUnit sec s).currentSectionIndex = s.currentSectionIndex := rfl

lemma speakUnit_currentLineIndex (sec : Section) (s : SessionState) :
    (speakUnit sec s).currentLineIndex = s.currentLineIndex := rfl

lemma speakUnit_captureOverlay (sec : Section) (s : SessionState) :
    (speakUnit sec s).captureOverlay = false := rfl

lemma speakUnit_pending (sec : Section) (s : SessionState) :
    (speakUnit sec s).pending = some
      ⟨((collectGroupedLines sec.script_lines s.currentLineIndex).getLastD
          (defaultLine, 0)).2,
        sec.auto_terminate ||
          ((collectGroupedLines sec.script_lines s.currentLineIndex).getLastD
            (defaultLine, 0)).1.auto_terminate,
        ((collectGroupedLines sec.script_lines s.currentLineIndex).getLastD
          (defaultLine, 0)).1.capture_mode,
        (docScan (collectGroupedLines sec.script_lines s.currentLineIndex)
          (false, none, s.currentCaptureType)).1⟩ := rfl

lemma speakUnit_spokenLog (sec : Section) (s : SessionState) :
    (speakUnit sec s).spokenLog = s.spokenLog ++
      (collectGroupedLines sec.script_lines s.currentLineIndex).map
        (fun item => (s.currentSectionIndex, item.2)) := rfl

lemma handleCaptureNext_eq (s : SessionState) : handleCaptureNext s = handleNextQuestion s := rfl

lemma stopRecording_not_recording {s : SessionState} (h : s.isRecording = false) :
    stopRecording s = s := by
  simp [stopRecording, h]

/-! ### Position-list lemmas -/

lemma posFrom_out {S : Script} {i : Nat} (j : Nat) (h : S.sections.length ≤ i) :
    posFrom S i j = [] := by
  simp [posFrom, List.drop_eq_nil_of_le h, posFromAux]

lemma posFrom_cons {S : Script} {i : Nat} {sec : Section} (j : Nat)
    (hsec : S.sections[i]? = some sec) :
    posFrom S i j = sectionPos i sec.script_lines.length j ++ posFrom S (i + 1) 0 := by
  obtain ⟨hlt, hget⟩ := List.getElem?_eq_some_iff.mp hsec
  rw [posFrom, List.drop_eq_getElem_cons hlt, hget]
  rfl

lemma posFrom_skip {S : Script} {i j : Nat} {sec : Section}
    (hsec : S.sections[i]? = some sec) (hend : sec.script_lines.length ≤ j) :
    posFrom S i j = posFrom S (i + 1) 0 := by
  rw [posFrom_cons j hsec]
  simp [sectionPos, Nat.sub_eq_zero_of_le hend]

lemma posFrom_split {S : Script} {i j : Nat} {sec : Section}
    (hsec : S.sections[i]? = some sec) (hlt : j < sec.script_lines.length) :
    posFrom S i j =
      (List.range' j (specGroupEnd sec.script_lines j + 1 - j)).map (fun k => (i, k)) ++
        posFrom S i (specGroupEnd sec.script_lines j + 1) := by
  have hb := specGroupEnd_bounds hlt
  rw [posFrom_cons j hsec, posFrom_cons (specGroupEnd sec.script_lines j + 1) hsec,
    ← List.append_assoc]
  congr 1
  unfold sectionPos
  rw [← List.map_append]
  congr 1
  have happ := List.range'_append j (specGroupEnd sec.script_lines j + 1 - j)
    (sec.script_lines.length - (specGroupEnd sec.script_lines j + 1)) 1
  rw [show j + 1 * (specGroupEnd sec.script_lines j + 1 - j) =
      specGroupEnd sec.script_lines j + 1 by omega] at happ
  rw [happ]
  congr 1
  omega

lemma posFromAux_length : ∀ (secs : List Section) (i : Nat),
    (posFromAux secs i 0).length = (secs.map (fun sec => sec.script_lines.length)).sum := by
  intro secs
  induction secs with
  | nil => intro i; rfl
  | cons sec rest ih =>
    intro i
    simp [posFromAux, sectionPos, List.length_append, List.length_map,
      List.length_range', ih (i + 1)]

lemma posFrom_zero_length {S : Script} : (posFrom S 0 0).length = totalLines S := by
  rw [posFrom, List.drop_zero, totalLines]
  exact posFromAux_length S.sections 0

lemma posFromAux_fst_ge : ∀ (secs : List Section) (i j : Nat),
    ∀ q ∈ posFromAux secs i j, i ≤ q.1 := by
  intro secs
  induction secs with
  | nil => intro i j q hq; simp [posFromAux] at hq
  | cons sec rest ih =>
    intro i j q hq
    simp only [posFromAux, List.mem_append] at hq
    rcases hq with hq | hq
    · simp only [sectionPos, List.mem_map] at hq
      obtain ⟨k, _, rfl⟩ := hq
      exact le_refl i
    · have := ih (i + 1) 0 q hq
      omega

lemma posFromAux_nodup : ∀ (secs : List Section) (i j : Nat),
    (posFromAux secs i j).Nodup := by
  intro secs
  induction secs with
  | nil => intro i j; simp [posFromAux]
  | cons sec rest ih =>
    intro i j
    simp only [posFromAux]
    apply List.Nodup.append
    · apply List.Nodup.map
      · intro a b hab
        exact congrArg Prod.snd hab
      · exact List.nodup_range' j (sec.script_lines.length - j)
    · exact ih (i + 1) 0
    · intro q hq hq'
      simp only [sectionPos, List.mem_map] at hq
      obtain ⟨k, _, rfl⟩ := hq
      have := posFromAux_fst_ge rest (i + 1) 0 (i, k) hq'
      omega

lemma posFrom_nodup (S : Script) (i j : Nat) : (posFrom S i j).Nodup :=
  posFromAux_nodup (S.sections.drop i) i j

/-! ### Scripts without auto-terminate flags -/

lemma noAT_section {S : Script} (h : NoAutoTerminate S) {i : Nat} {sec : Section}
    (hsec : S.sections[i]? = some sec) :
    sec.auto_terminate = false ∧ ∀ l ∈ sec.script_lines, l.auto_terminate = false := by
  rw [NoAutoTerminate, List.all_eq_true] at h
  have hmem : sec ∈ S.sections := by
    obtain ⟨hlt, hget⟩ := List.getElem?_eq_some_iff.mp hsec
    exact hget ▸ List.getElem_mem hlt
  have hsec' := h sec hmem
  rw [Bool.and_eq_true, List.all_eq_true] at hsec'
  constructor
  · have := hsec'.1
    revert this
    cases sec.auto_terminate <;> simp
  · intro l hl
    have := hsec'.2 l hl
    revert this
    cases l.auto_terminate <;> simp

lemma noAT_anchor {S : Script} (h : NoAutoTerminate S) {i j : Nat} {sec : Section}
    (hsec : S.sections[i]? = some sec) (hj : j < sec.script_lines.length) :
    (sec.script_lines.getD (specGroupEnd sec.script_lines j) defaultLine).auto_terminate
      = false := by
  have hb := specGroupEnd_bounds hj
  have hmem : sec.script_lines.getD (specGroupEnd sec.script_lines j) defaultLine
      ∈ sec.script_lines := by
    rw [List.getD_eq_getElem?_getD, List.getElem?_eq_getElem hb.2]
    exact List.getElem_mem hb.2
  exact (noAT_section h hsec).2 _ hmem

/-! ### One interaction cycle on a freshly spoken unit -/

lemma cycle_eq (s : SessionState) : cycle s = handleNextQuestion (onSpeechEnd s) := by
  simp [cycle, handleCaptureNext_eq]

lemma onSpeechEnd_fields {s : SessionState} {p : Pending}
    (hp : s.pending = some p) (hAT : p.isAutoTerminate = false) :
    (onSpeechEnd s).pending = none ∧
    (onSpeechEnd s).currentLineIndex = p.lastLineIndex ∧
    (onSpeechEnd s).currentSectionIndex = s.currentSectionIndex ∧
    (onSpeechEnd s).isAutoPlaying = s.isAutoPlaying ∧
    (onSpeechEnd s).isRecording = s.isRecording ∧
    (onSpeechEnd s).mediaRecorder = s.mediaRecorder ∧
    (onSpeechEnd s).scriptData = s.scriptData ∧
    (onSpeechEnd s).spokenLog = s.spokenLog ∧
    (onSpeechEnd s).utterances = s.utterances := by
  by_cases hcm : p.isCaptureMode = true
  · by_cases hsd : p.showDocument = true <;>
      simp [onSpeechEnd, hp, hAT, hcm, hsd]
  · simp [onSpeechEnd, hp, hAT, hcm]

lemma onSpeechEnd_none {s : SessionState} (h : s.pending = none) : onSpeechEnd s = s := by
  simp [onSpeechEnd, h]

lemma cycle_speakUnit {s : SessionState} {sec : Section}
    (hAT : sec.auto_terminate = false)
    (hlt : s.currentLineIndex < sec.script_lines.length)
    (hanchor : (sec.script_lines.getD (specGroupEnd sec.script_lines s.currentLineIndex)
        defaultLine).auto_terminate = false)
    (hAP : s.isAutoPlaying = true) :
    ∃ t, cycle (speakUnit sec s) = playNextLine t ∧
      t.scriptData = s.scriptData ∧ t.isAutoPlaying = true ∧ t.pending = none ∧
      t.isRecording = s.isRecording ∧ t.mediaRecorder = s.mediaRecorder ∧
      t.currentSectionIndex = s.currentSectionIndex ∧
      t.currentLineIndex = specGroupEnd sec.script_lines s.currentLineIndex + 1 ∧
      t.spokenLog = s.spokenLog ++
        (List.range' s.currentLineIndex
          (specGroupEnd sec.script_lines s.currentLineIndex + 1 - s.currentLineIndex)).map
          (fun k => (s.currentSectionIndex, k)) := by
  have hgl := collectGroupedLines_getLastD hlt
  have hpend : (speakUnit sec s).pending = some
      ⟨specGroupEnd sec.script_lines s.currentLineIndex, false,
        (sec.script_lines.getD (specGroupEnd sec.script_lines s.currentLineIndex)
          defaultLine).capture_mode,
        (docScan (collectGroupedLines sec.script_lines s.currentLineIndex)
          (false, none, s.currentCaptureType)).1⟩ := by
    rw [speakUnit_pending, hgl, hAT, hanchor]
    rfl
  obtain ⟨hB1, hB2, hB3, hB4, hB5, hB6, hB7, hB8, hB9⟩ := onSpeechEnd_fields hpend rfl
  have hBAP : (onSpeechEnd (speakUnit sec s)).isAutoPlaying = true := by
    rw [hB4, speakUnit_isAutoPlaying, hAP]
  refine ⟨{ (hideAllOverlays (onSpeechEnd (speakUnit sec s))) with
      currentLineIndex := (onSpeechEnd (speakUnit sec s)).currentLineIndex + 1 }, ?_,
    ?_, ?_, ?_, ?_, ?_, ?_, ?_, ?_⟩
  · rw [cycle_eq]
    have hne : ¬ (onSpeechEnd (speakUnit sec s)).isAutoPlaying = false := by
      rw [hBAP]; simp
    simp [handleNextQuestion, hne]
  · show (onSpeechEnd (speakUnit sec s)).scriptData = s.scriptData
    rw [hB7, speakUnit_scriptData]
  · show (onSpeechEnd (speakUnit sec s)).isAutoPlaying = true
    exact hBAP
  · show (onSpeechEnd (speakUnit sec s)).pending = none
    exact hB1
  · show (onSpeechEnd (speakUnit sec s)).isRecording = s.isRecording
    rw [hB5, speakUnit_isRecording]
  · show (onSpeechEnd (speakUnit sec s)).mediaRecorder = s.mediaRecorder
    rw [hB6, speakUnit_mediaRecorder]
  · show (onSpeechEnd (speakUnit sec s)).currentSectionIndex = s.currentSectionIndex
    rw [hB3, speakUnit_currentSectionIndex]
  · show (onSpeechEnd (speakUnit sec s)).currentLineIndex + 1 =
      specGroupEnd sec.script_lines s.currentLineIndex + 1
    rw [hB2]
  · show (onSpeechEnd (speakUnit sec s)).spokenLog = _
    rw [hB8, speakUnit_spokenLog, collectGroupedLines_positions hlt]

/-! ### Full traversal of a script without auto-terminate flags -/

lemma walk {S : Script} (hno : NoAutoTerminate S) :
    ∀ n (s : SessionState), s.scriptData = some S → s.isAutoPlaying = true →
      s.pending = none → s.isRecording = true → s.mediaRecorder = true →
      s.currentSectionIndex < S.sections.length →
      (posFrom S s.currentSectionIndex s.currentLineIndex).length +
        (S.sections.length - s.currentSectionIndex) ≤ n →
      ∃ m, (cycle^[m] (playNextLine s)).spokenLog =
            s.spokenLog ++ posFrom S s.currentSectionIndex s.currentLineIndex ∧
          (cycle^[m] (playNextLine s)).isAutoPlaying = false ∧
          (cycle^[m] (playNextLine s)).isRecording = false := by
  intro n
  induction n with
  | zero => intro s _ _ _ _ _ hi hb; omega
  | succ n ih =>
    intro s hS hAP hpend hrec hmr hi hb
    have hsec : S.sections[s.currentSectionIndex]? = some S.sections[s.currentSectionIndex] :=
      List.getElem?_eq_getElem hi
    generalize hsec' : S.sections[s.currentSectionIndex] = sec at hsec
    by_cases hlt : s.currentLineIndex < sec.script_lines.length
    · have hsecAT := (noAT_section hno hsec).1
      have hanchor := noAT_anchor hno hsec hlt
      obtain ⟨t, hcyc, h1, h2, h3, h4, h5, h6, h7, h8⟩ := cycle_speakUnit hsecAT hlt hanchor hAP
      have hsplit := posFrom_split hsec hlt
      have hlen : (posFrom S s.currentSectionIndex s.currentLineIndex).length =
          (specGroupEnd sec.script_lines s.currentLineIndex + 1 - s.currentLineIndex) +
          (posFrom S s.currentSectionIndex
            (specGroupEnd sec.script_lines s.currentLineIndex + 1)).length := by
        rw [hsplit]
        simp [List.length_append, List.length_map, List.length_range']
      have hbnd := specGroupEnd_bounds hlt
      have ht := ih t (by rw [h1, hS]) h2 h3 (by rw [h4, hrec]) (by rw [h5, hmr])
        (by rw [h6]; exact hi) (by rw [h6, h7]; omega)
      obtain ⟨m, hm1, hm2, hm3⟩ := ht
      refine ⟨m + 1, ?_, ?_, ?_⟩
      · rw [playNextLine_speak hS hAP hsec hlt, Function.iterate_succ_apply, hcyc, hm1,
          h8, h6, h7, hsplit, List.append_assoc]
      · rw [playNextLine_speak hS hAP hsec hlt, Function.iterate_succ_apply, hcyc]
        exact hm2
      · rw [playNextLine_speak hS hAP hsec hlt, Function.iterate_succ_apply, hcyc]
        exact hm3
    · push_neg at hlt
      have hskip := posFrom_skip hsec hlt
      by_cases hmore : s.currentSectionIndex + 1 < S.sections.length
      · have hadv := playNextLine_advance hS hAP hsec hlt hmore
        obtain ⟨s1, hs1⟩ : ∃ s1, s1 =
            { s with currentSectionIndex := s.currentSectionIndex + 1,
                     currentLineIndex := 0 } := ⟨_, rfl⟩
        have f1 : s1.scriptData = s.scriptData := by rw [hs1]
        have f2 : s1.currentSectionIndex = s.currentSectionIndex + 1 := by rw [hs1]
        have f3 : s1.currentLineIndex = 0 := by rw [hs1]
        have f4 : s1.isAutoPlaying = s.isAutoPlaying := by rw [hs1]
        have f5 : s1.pending = s.pending := by rw [hs1]
        have f6 : s1.isRecording = s.isRecording := by rw [hs1]
        have f7 : s1.mediaRecorder = s.mediaRecorder := by rw [hs1]
        have f8 : s1.spokenLog = s.spokenLog := by rw [hs1]
        rw [← hs1] at hadv
        have ht := ih s1 (f1.trans hS) (f4.trans hAP) (f5.trans hpend)
          (f6.trans hrec) (f7.trans hmr) (by rw [f2]; omega)
          (by rw [f2, f3, ← hskip]; omega)
        obtain ⟨m, hm1, hm2, hm3⟩ := ht
        refine ⟨m, ?_, ?_, ?_⟩
        · rw [hadv, hm1, f8, f2, f3, hskip]
        · rw [hadv]; exact hm2
        · rw [hadv]; exact hm3
      · have hterm := playNextLine_terminal hS hAP hsec hlt (by omega)
        have hout : posFrom S s.currentSectionIndex s.currentLineIndex = [] := by
          rw [hskip]
          exact posFrom_out 0 (by omega)
        refine ⟨0, ?_, ?_, ?_⟩
        · rw [Function.iterate_zero_apply, hterm, hout]
          simp [stopRecording, hideAllOverlays, hrec, hmr]
        · rw [Function.iterate_zero_apply, hterm]
          simp [stopRecording, hideAllOverlays, hrec, hmr]
        · rw [Function.iterate_zero_apply, hterm]
          simp [stopRecording, hideAllOverlays, hrec, hmr]

/-! ### Cursor order and controller invariant -/

lemma cursorLe_refl (a : Nat × Nat) : cursorLe a a := Or.inr ⟨rfl, le_refl _⟩

lemma cursorLe_trans {a b c : Nat × Nat} (h1 : cursorLe a b) (h2 : cursorLe b c) :
    cursorLe a c := by
  unfold cursorLe at h1 h2 ⊢
  omega

lemma cursorLe_fst {a b : Nat × Nat} (h : cursorLe a b) : a.1 ≤ b.1 := by
  unfold cursorLe at h
  omega

lemma stopRecording_cursor (s : SessionState) : cursor (stopRecording s) = cursor s := by
  unfold stopRecording
  split <;> rfl

lemma stopRecording_currentLineIndex (s : SessionState) :
    (stopRecording s).currentLineIndex = s.currentLineIndex := by
  unfold stopRecording
  split <;> rfl

lemma stopRecording_currentSectionIndex (s : SessionState) :
    (stopRecording s).currentSectionIndex = s.currentSectionIndex := by
  unfold stopRecording
  split <;> rfl

lemma stopRecording_pending (s : SessionState) :
    (stopRecording s).pending = s.pending := by
  unfold stopRecording
  split <;> rfl

lemma stopRecording_scriptData (s : SessionState) :
    (stopRecording s).scriptData = s.scriptData := by
  unfold stopRecording
  split <;> rfl

lemma stopRecording_spokenLog (s : SessionState) :
    (stopRecording s).spokenLog = s.spokenLog := by
  unfold stopRecording
  split <;> rfl

lemma stopRecording_utterances (s : SessionState) :
    (stopRecording s).utterances = s.utterances := by
  unfold stopRecording
  split <;> rfl

lemma stopRecording_AP_true {s : SessionState}
    (h : (stopRecording s).isAutoPlaying = true) : s.isAutoPlaying = true := by
  revert h
  unfold stopRecording
  split
  · intro h; cases h
  · exact fun h => h

lemma retakeImage_fields (s : SessionState) :
    (retakeImage s).pending = s.pending ∧ cursor (retakeImage s) = cursor s ∧
    (retakeImage s).isAutoPlaying = s.isAutoPlaying ∧
    (retakeImage s).scriptData = s.scriptData ∧
    (retakeImage s).spokenLog = s.spokenLog ∧
    (retakeImage s).utterances = s.utterances := by
  unfold retakeImage
  split <;> exact ⟨rfl, rfl, rfl, rfl, rfl, rfl⟩

lemma playNextLineAux_no_script {s : SessionState} (h : s.scriptData = none) :
    ∀ fuel, playNextLineAux fuel s = s := by
  intro fuel
  cases fuel with
  | zero => rfl
  | succ fuel => simp [playNextLineAux, h]

lemma playNextLineAux_not_playing {s : SessionState} (h : s.isAutoPlaying = false) :
    ∀ fuel, playNextLineAux fuel s = s := by
  intro fuel
  cases fuel with
  | zero => rfl
  | succ fuel => cases hs : s.scriptData <;> simp [playNextLineAux, hs, h]

lemma playNextLineAux_sec_none {s : SessionState} {script : Script}
    (hs : s.scriptData = some script)
    (hsec : script.sections[s.currentSectionIndex]? = none) :
    ∀ fuel, playNextLineAux fuel s = s := by
  intro fuel
  cases fuel with
  | zero => rfl
  | succ fuel =>
    by_cases hAP : s.isAutoPlaying = false <;> simp [playNextLineAux, hs, hAP, hsec]

lemma playNextLineAux_cursor_mono : ∀ (fuel : Nat) (s : SessionState),
    cursorLe (cursor s) (cursor (playNextLineAux fuel s)) := by
  intro fuel
  induction fuel with
  | zero => intro s; exact cursorLe_refl _
  | succ fuel ih =>
    intro s
    cases hs : s.scriptData with
    | none => rw [playNextLineAux_no_script hs]; exact cursorLe_refl _
    | some script =>
      by_cases hAP : s.isAutoPlaying = false
      · rw [playNextLineAux_not_playing hAP]; exact cursorLe_refl _
      · cases hsec : script.sections[s.currentSectionIndex]? with
        | none => rw [playNextLineAux_sec_none hs hsec]; exact cursorLe_refl _
        | some sec =>
          by_cases hend : sec.script_lines.length ≤ s.currentLineIndex
          · by_cases hlast : script.sections.length ≤ s.currentSectionIndex + 1
            · have : playNextLineAux (fuel + 1) s = stopRecording (hideAllOverlays
                  { s with currentSectionIndex := s.currentSectionIndex + 1,
                           currentLineIndex := 0, isAutoPlaying := false }) := by
                simp [playNextLineAux, hs, hAP, hsec, hend, hlast]
              rw [this, stopRecording_cursor]
              left
              simp [cursor, hideAllOverlays]
            · have hred : playNextLineAux (fuel + 1) s = playNextLineAux fuel
                  { s with currentSectionIndex := s.currentSectionIndex + 1,
                           currentLineIndex := 0 } := by
                simp [playNextLineAux, hs, hAP, hsec, hend, hlast]
              rw [hred]
              refine cursorLe_trans ?_
                (ih { s with currentSectionIndex := s.currentSectionIndex + 1,
                             currentLineIndex := 0 })
              left
              simp [cursor]
          · have : playNextLineAux (fuel + 1) s = speakUnit sec s := by
              simp [playNextLineAux, hs, hAP, hsec, hend]
            rw [this]
            exact cursorLe_refl _

lemma playNextLine_cursor_mono (s : SessionState) :
    cursorLe (cursor s) (cursor (playNextLine s)) :=
  playNextLineAux_cursor_mono (sectionsLength s + 1) s

lemma speakUnit_Inv {s : SessionState} {script : Script} {sec : Section}
    (hs : s.scriptData = some script) (hAP : s.isAutoPlaying = true)
    (hsec : script.sections[s.currentSectionIndex]? = some sec)
    (hlt : s.currentLineIndex < sec.script_lines.length) :
    Inv (speakUnit sec s) := by
  intro p hp
  rw [speakUnit_pending, collectGroupedLines_getLastD hlt] at hp
  cases hp
  constructor
  · show s.currentLineIndex ≤ specGroupEnd sec.script_lines s.currentLineIndex
    exact (specGroupEnd_bounds hlt).1
  · intro _
    exact ⟨script, sec, hs, hsec⟩

lemma playNextLineAux_Inv_section : ∀ (fuel : Nat) (s : SessionState) (script : Script)
    (sec : Section), s.scriptData = some script → s.isAutoPlaying = true →
    script.sections[s.currentSectionIndex]? = some sec →
    sectionsLength s + 1 - s.currentSectionIndex ≤ fuel →
    Inv (playNextLineAux fuel s) := by
  intro fuel
  induction fuel with
  | zero =>
    intro s script sec hs hAP hsec hfuel
    have hK : sectionsLength s = script.sections.length := by simp [sectionsLength, hs]
    have := (List.getElem?_eq_some_iff.mp hsec).1
    omega
  | succ fuel ih =>
    intro s script sec hs hAP hsec hfuel
    have hAP' : ¬ s.isAutoPlaying = false := by rw [hAP]; simp
    by_cases hend : sec.script_lines.length ≤ s.currentLineIndex
    · by_cases hlast : script.sections.length ≤ s.currentSectionIndex + 1
      · have hred : playNextLineAux (fuel + 1) s = stopRecording (hideAllOverlays
            { s with currentSectionIndex := s.currentSectionIndex + 1,
                     currentLineIndex := 0, isAutoPlaying := false }) := by
          simp [playNextLineAux, hs, hAP', hsec, hend, hlast]
        rw [hred]
        intro p hp
        rw [stopRecording_pending] at hp
        constructor
        · rw [stopRecording_currentLineIndex]
          exact Nat.zero_le _
        · intro hap
          exact absurd (stopRecording_AP_true hap) (by simp [hideAllOverlays])
      · have hred : playNextLineAux (fuel + 1) s = playNextLineAux fuel
            { s with currentSectionIndex := s.currentSectionIndex + 1,
                     currentLineIndex := 0 } := by
          simp [playNextLineAux, hs, hAP', hsec, hend, hlast]
        rw [hred]
        have hK : sectionsLength s = script.sections.length := by simp [sectionsLength, hs]
        obtain ⟨sec1, hsec1⟩ : ∃ x, script.sections[s.currentSectionIndex + 1]? = some x :=
          ⟨_, List.getElem?_eq_getElem (by omega)⟩
        exact ih { s with currentSectionIndex := s.currentSectionIndex + 1,
                          currentLineIndex := 0 } script sec1 hs hAP hsec1
          (by simp only [sectionsLength, hs]; omega)
    · have hred : playNextLineAux (fuel + 1) s = speakUnit sec s := by
        simp [playNextLineAux, hs, hAP', hsec, hend]
      rw [hred]
      exact speakUnit_Inv hs hAP hsec (by omega)

lemma playNextLine_Inv {s : SessionState} (hInv : Inv s) : Inv (playNextLine s) := by
  cases hs : s.scriptData with
  | none => rw [playNextLine_no_script hs]; exact hInv
  | some script =>
    by_cases hAP : s.isAutoPlaying = false
    · rw [playNextLine_not_playing hAP]; exact hInv
    · cases hsec : script.sections[s.currentSectionIndex]? with
      | none =>
        rw [playNextLine, playNextLineAux_sec_none hs hsec]
        exact hInv
      | some sec =>
        have hAPt : s.isAutoPlaying = true := by
          revert hAP; cases s.isAutoPlaying <;> simp
        exact playNextLineAux_Inv_section _ s script sec hs hAPt hsec (by omega)

lemma playNextLine_Inv_section {s : SessionState} {script : Script} {sec : Section}
    (hs : s.scriptData = some script) (hAP : s.isAutoPlaying = true)
    (hsec : script.sections[s.currentSectionIndex]? = some sec) :
    Inv (playNextLine s) :=
  playNextLineAux_Inv_section _ s script sec hs hAP hsec (by omega)

lemma onSpeechEnd_mono_Inv {s : SessionState} (hInv : Inv s) :
    cursorLe (cursor s) (cursor (onSpeechEnd s)) ∧ Inv (onSpeechEnd s) := by
  cases hp : s.pending with
  | none => rw [onSpeechEnd_none hp]; exact ⟨cursorLe_refl _, hInv⟩
  | some p =>
    have h1 := (hInv p hp).1
    by_cases hAT : p.isAutoTerminate = true
    · have hred : onSpeechEnd s = playNextLine
          { s with pending := none, currentLineIndex := p.lastLineIndex + 1 } := by
        simp [onSpeechEnd, hp, hAT]
      rw [hred]
      constructor
      · refine cursorLe_trans ?_ (playNextLine_cursor_mono _)
        right
        exact ⟨rfl, by simp [cursor]; omega⟩
      · apply playNextLine_Inv
        intro q hq
        simp at hq
    · have hAT' : p.isAutoTerminate = false := by
        revert hAT; cases p.isAutoTerminate <;> simp
      obtain ⟨hB1, hB2, hB3, hB4, hB5, hB6, hB7, hB8, hB9⟩ := onSpeechEnd_fields hp hAT'
      constructor
      · right
        refine ⟨hB3.symm, ?_⟩
        rw [show (cursor (onSpeechEnd s)).2 = (onSpeechEnd s).currentLineIndex from rfl, hB2]
        exact h1
      · intro q hq
        rw [hB1] at hq
        simp at hq

lemma handleNextQuestion_mono_Inv {s : SessionState} (hInv : Inv s) :
    cursorLe (cursor s) (cursor (handleNextQuestion s)) ∧ Inv (handleNextQuestion s) := by
  by_cases hAP : s.isAutoPlaying = false
  · have hid : handleNextQuestion s = s := by simp [handleNextQuestion, hAP]
    rw [hid]
    exact ⟨cursorLe_refl _, hInv⟩
  · have hAPt : s.isAutoPlaying = true := by
      revert hAP; cases s.isAutoPlaying <;> simp
    have hred : handleNextQuestion s = playNextLine
        { (hideAllOverlays s) with currentLineIndex := s.currentLineIndex + 1 } := by
      simp [handleNextQuestion, hAP]
    rw [hred]
    constructor
    · refine cursorLe_trans ?_ (playNextLine_cursor_mono _)
      right
      exact ⟨rfl, by simp [cursor, hideAllOverlays]⟩
    · cases hp : s.pending with
      | none =>
        apply playNextLine_Inv
        intro q hq
        rw [show ({ (hideAllOverlays s) with
            currentLineIndex := s.currentLineIndex + 1 } : SessionState).pending =
          s.pending from rfl, hp] at hq
        simp at hq
      | some p =>
        obtain ⟨script, sec, hs, hsec⟩ := (hInv p hp).2 hAPt
        exact playNextLine_Inv_section hs hAPt hsec

lemma stopRecording_mono_Inv {s : SessionState} (hInv : Inv s) :
    cursorLe (cursor s) (cursor (stopRecording s)) ∧ Inv (stopRecording s) := by
  refine ⟨by rw [stopRecording_cursor]; exact cursorLe_refl _, ?_⟩
  intro p hp
  rw [stopRecording_pending] at hp
  obtain ⟨h1, h2⟩ := hInv p hp
  refine ⟨by rw [stopRecording_currentLineIndex]; exact h1, ?_⟩
  intro hap
  obtain ⟨script, sec, hs, hsec⟩ := h2 (stopRecording_AP_true hap)
  exact ⟨script, sec, by rw [stopRecording_scriptData]; exact hs,
    by rw [stopRecording_currentSectionIndex]; exact hsec⟩

lemma step_mono_Inv (e : Event) {s : SessionState} (hInv : Inv s) :
    cursorLe (cursor s) (cursor (step e s)) ∧ Inv (step e s) := by
  cases e with
  | speechEnd => exact onSpeechEnd_mono_Inv hInv
  | userNext => exact handleNextQuestion_mono_Inv hInv
  | captureNext => rw [step, handleCaptureNext_eq]; exact handleNextQuestion_mono_Inv hInv
  | stopClick => exact stopRecording_mono_Inv hInv
  | capture now frame => exact ⟨cursorLe_refl _, fun p hp => hInv p hp⟩
  | retake =>
    obtain ⟨f1, f2, f3, f4, f5, f6⟩ := retakeImage_fields s
    have fsec : (retakeImage s).currentSectionIndex = s.currentSectionIndex :=
      congrArg Prod.fst f2
    have fline : (retakeImage s).currentLineIndex = s.currentLineIndex :=
      congrArg Prod.snd f2
    simp only [step]
    constructor
    · rw [f2]
      exact cursorLe_refl _
    · intro p hp
      rw [f1] at hp
      obtain ⟨h1, h2⟩ := hInv p hp
      refine ⟨by rw [fline]; exact h1, ?_⟩
      intro hap
      rw [f3] at hap
      obtain ⟨script, sec, hs, hsec⟩ := h2 hap
      exact ⟨script, sec, by rw [f4]; exact hs, by rw [fsec]; exact hsec⟩

lemma run_mono_Inv : ∀ (es : List Event) (s : SessionState), Inv s →
    cursorLe (cursor s) (cursor (run es s)) ∧ Inv (run es s) := by
  intro es
  induction es with
  | nil => intro s h; exact ⟨cursorLe_refl _, h⟩
  | cons e es ih =>
    intro s h
    have h1 := step_mono_Inv e h
    have h2 := ih (step e s) h1.2
    exact ⟨cursorLe_trans h1.1 h2.1, h2.2⟩

/-! ### Quiescence once auto-play is off -/

lemma stopRecording_AP_false {s : SessionState} (h : s.isAutoPlaying = false) :
    (stopRecording s).isAutoPlaying = false := by
  unfold stopRecording
  split
  · rfl
  · exact h

lemma notPlaying_step (e : Event) {s : SessionState} (h : s.isAutoPlaying = false) :
    (step e s).isAutoPlaying = false ∧ (step e s).spokenLog = s.spokenLog ∧
    (step e s).utterances = s.utterances ∧
    (step e s).currentSectionIndex = s.currentSectionIndex := by
  cases e with
  | speechEnd =>
    cases hp : s.pending with
    | none => rw [show step Event.speechEnd s = onSpeechEnd s from rfl, onSpeechEnd_none hp]
              exact ⟨h, rfl, rfl, rfl⟩
    | some p =>
      by_cases hAT : p.isAutoTerminate = true
      · have hred : onSpeechEnd s = playNextLine
            { s with pending := none, currentLineIndex := p.lastLineIndex + 1 } := by
          simp [onSpeechEnd, hp, hAT]
        have hid := playNextLine_not_playing
          (s := { s with pending := none, currentLineIndex := p.lastLineIndex + 1 }) h
        rw [show step Event.speechEnd s = onSpeechEnd s from rfl, hred, hid]
        exact ⟨h, rfl, rfl, rfl⟩
      · have hAT' : p.isAutoTerminate = false := by
          revert hAT; cases p.isAutoTerminate <;> simp
        obtain ⟨hB1, hB2, hB3, hB4, hB5, hB6, hB7, hB8, hB9⟩ := onSpeechEnd_fields hp hAT'
        exact ⟨hB4.trans h, hB8, hB9, hB3⟩
  | userNext =>
    rw [show step Event.userNext s = handleNextQuestion s from rfl,
      show handleNextQuestion s = s from by simp [handleNextQuestion, h]]
    exact ⟨h, rfl, rfl, rfl⟩
  | captureNext =>
    rw [show step Event.captureNext s = handleCaptureNext s from rfl, handleCaptureNext_eq,
      show handleNextQuestion s = s from by simp [handleNextQuestion, h]]
    exact ⟨h, rfl, rfl, rfl⟩
  | stopClick =>
    exact ⟨stopRecording_AP_false h, stopRecording_spokenLog s, stopRecording_utterances s,
      stopRecording_currentSectionIndex s⟩
  | capture now frame => exact ⟨h, rfl, rfl, rfl⟩
  | retake =>
    obtain ⟨f1, f2, f3, f4, f5, f6⟩ := retakeImage_fields s
    have fsec : (retakeImage s).currentSectionIndex = s.currentSectionIndex :=
      congrArg Prod.fst f2
    exact ⟨f3.trans h, f5, f6, fsec⟩

/-! ### The narration unit's behavior as a function of its lines -/

lemma getD_drop (xs : List Line) (j k : Nat) :
    (xs.drop j).getD k defaultLine = xs.getD (j + k) defaultLine := by
  rw [List.getD_eq_getElem?_getD, List.getD_eq_getElem?_getD, List.getElem?_drop]

lemma firstUngrouped_congr : ∀ (xs ys : List Line), xs.length = ys.length →
    (∀ k, (xs.getD k defaultLine).group_with_next =
      (ys.getD k defaultLine).group_with_next) →
    firstUngrouped xs = firstUngrouped ys := by
  intro xs
  induction xs with
  | nil =>
    intro ys hlen _
    cases ys with
    | nil => rfl
    | cons y ys => simp at hlen
  | cons x xs ih =>
    intro ys hlen hg
    cases ys with
    | nil => simp at hlen
    | cons y ys =>
      have h0 := hg 0
      rw [List.getD_cons_zero, List.getD_cons_zero] at h0
      have htail : ∀ k, (xs.getD k defaultLine).group_with_next =
          (ys.getD k defaultLine).group_with_next := by
        intro k
        have := hg (k + 1)
        rwa [List.getD_cons_succ, List.getD_cons_succ] at this
      simp only [firstUngrouped]
      rw [h0, ih ys (by simpa using hlen) htail]

lemma specGroupEnd_congr {xs ys : List Line} (hlen : xs.length = ys.length)
    (hg : ∀ k, (xs.getD k defaultLine).group_with_next =
      (ys.getD k defaultLine).group_with_next) (j : Nat) :
    specGroupEnd xs j = specGroupEnd ys j := by
  unfold specGroupEnd
  rw [firstUngrouped_congr (xs.drop j) (ys.drop j)
    (by rw [List.length_drop, List.length_drop, hlen])
    (fun k => by rw [getD_drop, getD_drop]; exact hg (j + k)), hlen]

lemma docScan_cons (a : Line × Nat) (l : List (Line × Nat))
    (acc : Bool × Option String × Option String) :
    docScan (a :: l) acc = docScan l
      (if a.1.action_required = some "customer_shows_pan" then (true, some "pan", some "pan")
       else if a.1.action_required = some "customer_shows_aadhaar" then
        (true, some "aadhaar", some "aadhaar")
       else acc) := rfl

lemma docScan_congr : ∀ (items items' : List (Line × Nat)),
    items.map (fun it => it.1.action_required) =
      items'.map (fun it => it.1.action_required) →
    ∀ acc, docScan items acc = docScan items' acc := by
  intro items
  induction items with
  | nil =>
    intro items' hmap acc
    cases items' with
    | nil => rfl
    | cons b l => simp at hmap
  | cons a items ih =>
    intro items' hmap acc
    cases items' with
    | nil => simp at hmap
    | cons b items'' =>
      simp only [List.map_cons, List.cons.injEq] at hmap
      rw [docScan_cons, docScan_cons, hmap.1]
      exact ih items'' hmap.2 _

lemma speakUnit_congr {sec sec' : Section} {s : SessionState}
    (hAT : sec.auto_terminate = sec'.auto_terminate)
    (hlen : sec.script_lines.length = sec'.script_lines.length)
    (htext : ∀ k, (sec.script_lines.getD k defaultLine).text =
      (sec'.script_lines.getD k defaultLine).text)
    (hgwn : ∀ k, (sec.script_lines.getD k defaultLine).group_with_next =
      (sec'.script_lines.getD k defaultLine).group_with_next)
    (hact : ∀ k, (sec.script_lines.getD k defaultLine).action_required =
      (sec'.script_lines.getD k defaultLine).action_required)
    (hj : s.currentLineIndex < sec.script_lines.length)
    (hcm : (sec.script_lines.getD (specGroupEnd sec.script_lines s.currentLineIndex)
        defaultLine).capture_mode =
      (sec'.script_lines.getD (specGroupEnd sec.script_lines s.currentLineIndex)
        defaultLine).capture_mode)
    (hat : (sec.script_lines.getD (specGroupEnd sec.script_lines s.currentLineIndex)
        defaultLine).auto_terminate =
      (sec'.script_lines.getD (specGroupEnd sec.script_lines s.currentLineIndex)
        defaultLine).auto_terminate) :
    speakUnit sec s = speakUnit sec' s := by
  have hj' : s.currentLineIndex < sec'.script_lines.length := by omega
  have he : specGroupEnd sec'.script_lines s.currentLineIndex =
      specGroupEnd sec.script_lines s.currentLineIndex :=
    (specGroupEnd_congr hlen hgwn s.currentLineIndex).symm
  have hchar := collectGroupedLines_spec hj
  have hchar' := collectGroupedLines_spec hj'
  rw [he] at hchar'
  have etext : (collectGroupedLines sec.script_lines s.currentLineIndex).map
      (fun item => item.1.text) =
      (collectGroupedLines sec'.script_lines s.currentLineIndex).map
      (fun item => item.1.text) := by
    rw [hchar, hchar', List.map_map, List.map_map]
    exact List.map_congr_left (fun k _ => htext k)
  have eact : (collectGroupedLines sec.script_lines s.currentLineIndex).map
      (fun it => it.1.action_required) =
      (collectGroupedLines sec'.script_lines s.currentLineIndex).map
      (fun it => it.1.action_required) := by
    rw [hchar, hchar', List.map_map, List.map_map]
    exact List.map_congr_left (fun k _ => hact k)
  have escan : docScan (collectGroupedLines sec.script_lines s.currentLineIndex)
      (false, none, s.currentCaptureType) =
      docScan (collectGroupedLines sec'.script_lines s.currentLineIndex)
      (false, none, s.currentCaptureType) :=
    docScan_congr _ _ eact _
  have epos : (collectGroupedLines sec.script_lines s.currentLineIndex).map
      (fun item => (s.currentSectionIndex, item.2)) =
      (collectGroupedLines sec'.script_lines s.currentLineIndex).map
      (fun item => (s.currentSectionIndex, item.2)) := by
    rw [collectGroupedLines_positions hj, collectGroupedLines_positions hj', he]
  have hgl := collectGroupedLines_getLastD hj
  have hgl' := collectGroupedLines_getLastD hj'
  rw [he] at hgl'
  unfold speakUnit speakText
  simp only [hgl, hgl', etext, escan, epos, hAT, hcm, hat]

lemma notPlaying_run : ∀ (es : List Event) (s : SessionState),
    s.isAutoPlaying = false →
    (run es s).isAutoPlaying = false ∧ (run es s).spokenLog = s.spokenLog ∧
    (run es s).utterances = s.utterances ∧
    (run es s).currentSectionIndex = s.currentSectionIndex := by
  intro es
  induction es with
  | nil => intro s h; exact ⟨h, rfl, rfl, rfl⟩
  | cons e es ih =>
    intro s h
    obtain ⟨g1, g2, g3, g4⟩ := notPlaying_step e h
    obtain ⟨k1, k2, k3, k4⟩ := ih (step e s) g1
    exact ⟨k1, k2.trans g2, k3.trans g3, k4.trans g4⟩

/-! ## Claim theorems -/

/-! ### C1 -/

/-- A line flagged `auto_terminate` that is followed by a further line. -/
def scriptC1 : Script :=
  ⟨[⟨"closing", false,
    [⟨"thank you", false, false, none, true⟩,
     ⟨"extra", false, false, none, false⟩]⟩]⟩

/-- C1: the claim says that once the narration unit anchored at an
`auto_terminate` line completes, the controller reaches Terminated at once,
narrating nothing further.  Evaluating the code at a script whose
auto-terminate line is followed by another line shows the opposite: after the
flagged unit's completion callback, the controller narrates position (0,1)
and recording and auto-play are still on — the comment "just move to next
line (which will trigger end)" only holds when the flagged line is the
script's last. -/
theorem C1_auto_terminate_bug_eval :
    (sessionStart scriptC1).spokenLog = [(0, 0)] ∧
    (onSpeechEnd (sessionStart scriptC1)).spokenLog = [(0, 0), (0, 1)] ∧
    (onSpeechEnd (sessionStart scriptC1)).isRecording = true ∧
    (onSpeechEnd (sessionStart scriptC1)).isAutoPlaying = true := by
  decide

/-! ### C2 -/

/-- The page state after webcam access was granted but the script fetch
failed. -/
def c2Base : SessionState := loadScript none (initializeWebcam true initialState)

/-- C2 counterexample: with the script fetch failed, pressing Start still
engages the recording device (`isRecording` and `mediaRecorder` become true)
and no alert was ever shown to the user — the failure is neither fatal to
session start nor surfaced. -/
theorem C2_counterexample :
    (startRecording c2Base).isRecording = true ∧
    (startRecording c2Base).mediaRecorder = true ∧
    (startRecording c2Base).alerts = [] ∧
    (startRecording c2Base).spokenLog = [] := by
  decide

/-- C2 (amended): a script-load failure is logged to the console only: it is
not surfaced to the user (`loadScript` leaves the state unchanged, adding no
alert) and does not block session start — a subsequent start still engages
the recording device; the only mitigation is that no narration ever begins,
since `playNextLine` does nothing without a script. -/
theorem C2_amended (s : SessionState) (h1 : s.scriptData = none)
    (h2 : s.stream = true) :
    loadScript none s = s ∧
    (startRecording s).isRecording = true ∧
    (startRecording s).mediaRecorder = true ∧
    (startRecording s).alerts = s.alerts ∧
    (startRecording s).spokenLog = s.spokenLog ∧
    (startRecording s).utterances = s.utterances := by
  have hne : ¬ s.stream = false := by rw [h2]; simp
  have hred : startRecording s =
      { s with recordedChunks := [], capturedImages := [], mediaRecorder := true,
               isRecording := true, isAutoPlaying := true,
               currentSectionIndex := 0, currentLineIndex := 0 } := by
    rw [startRecording, if_neg hne]
    exact playNextLine_no_script h1
  rw [hred]
  exact ⟨rfl, rfl, rfl, rfl, rfl, rfl⟩

/-- C2 amended, at a concrete state: webcam granted, script fetch failed. -/
theorem C2_amended_witness :
    (initializeWebcam true initialState).scriptData = none ∧
    (initializeWebcam true initialState).stream = true ∧
    (startRecording (initializeWebcam true initialState)).isRecording = true := by
  exact ⟨rfl, rfl, (C2_amended (initializeWebcam true initialState) rfl rfl).2.1⟩

/-! ### C3 -/

/-- A grouped line carrying the PAN action tag, not the anchor of its unit. -/
def linePanGrouped : Line := ⟨"show pan", true, false, some "customer_shows_pan", false⟩

/-- The same line with the action tag removed. -/
def linePlainGrouped : Line := ⟨"show pan", true, false, none, false⟩

/-- The unit's anchor line: capture mode, no action tag. -/
def lineAnchorCap : Line := ⟨"anchor", false, true, none, false⟩

def scriptC3a : Script := ⟨[⟨"sec", false, [linePanGrouped, lineAnchorCap]⟩]⟩

def scriptC3b : Script := ⟨[⟨"sec", false, [linePlainGrouped, lineAnchorCap]⟩]⟩

/-- C3 counterexample: two scripts whose units agree on every line's text,
grouping, capture-mode and auto-terminate flags — and on the anchor line
entirely — but differ in an *earlier* grouped line's `action_required` tag,
produce different controller states: the earlier line's tag sets the active
capture type.  So the action-required tag is not taken exclusively from the
last line of the group, and earlier lines' flags do influence the
transition. -/
theorem C3_counterexample :
    linePanGrouped.text = linePlainGrouped.text ∧
    linePanGrouped.group_with_next = linePlainGrouped.group_with_next ∧
    linePanGrouped.capture_mode = linePlainGrouped.capture_mode ∧
    linePanGrouped.auto_terminate = linePlainGrouped.auto_terminate ∧
    lineAnchorCap.action_required = none ∧
    (sessionStart scriptC3a).currentCaptureType = some "pan" ∧
    (sessionStart scriptC3b).currentCaptureType = none := by
  decide

/-- C3 (amended): the capture-mode and auto-terminate flags that govern the
unit's post-narration branching are taken exclusively from the unit's anchor
(the group's last line) and the owning section: two sections that agree on
every line's text, grouping flag and action-required tag, and on the anchor
line's capture-mode and auto-terminate flags, give identical unit processing
(`speakUnit`), no matter how the *other* lines' capture-mode and
auto-terminate flags differ.  Earlier lines do, however, contribute their
`action_required` tags (scanned over the whole group) in addition to their
narration text; the second conjunct shows the resulting callback data: anchor
index, section-or-anchor auto-terminate, anchor capture-mode, and a
show-document flag computed from the whole group. -/
theorem C3_amended {sec sec' : Section} {s : SessionState}
    (hAT : sec.auto_terminate = sec'.auto_terminate)
    (hlen : sec.script_lines.length = sec'.script_lines.length)
    (htext : ∀ k, (sec.script_lines.getD k defaultLine).text =
      (sec'.script_lines.getD k defaultLine).text)
    (hgwn : ∀ k, (sec.script_lines.getD k defaultLine).group_with_next =
      (sec'.script_lines.getD k defaultLine).group_with_next)
    (hact : ∀ k, (sec.script_lines.getD k defaultLine).action_required =
      (sec'.script_lines.getD k defaultLine).action_required)
    (hj : s.currentLineIndex < sec.script_lines.length)
    (hcm : (sec.script_lines.getD (specGroupEnd sec.script_lines s.currentLineIndex)
        defaultLine).capture_mode =
      (sec'.script_lines.getD (specGroupEnd sec.script_lines s.currentLineIndex)
        defaultLine).capture_mode)
    (hat : (sec.script_lines.getD (specGroupEnd sec.script_lines s.currentLineIndex)
        defaultLine).auto_terminate =
      (sec'.script_lines.getD (specGroupEnd sec.script_lines s.currentLineIndex)
        defaultLine).auto_terminate) :
    speakUnit sec s = speakUnit sec' s ∧
    (speakUnit sec s).pending = some
      ⟨specGroupEnd sec.script_lines s.currentLineIndex,
        sec.auto_terminate ||
          (sec.script_lines.getD (specGroupEnd sec.script_lines s.currentLineIndex)
            defaultLine).auto_terminate,
        (sec.script_lines.getD (specGroupEnd sec.script_lines s.currentLineIndex)
          defaultLine).capture_mode,
        (docScan (collectGroupedLines sec.script_lines s.currentLineIndex)
          (false, none, s.currentCaptureType)).1⟩ := by
  refine ⟨speakUnit_congr hAT hlen htext hgwn hact hj hcm hat, ?_⟩
  rw [speakUnit_pending, collectGroupedLines_getLastD hj]

/-- A section whose first (grouped, non-anchor) line has neither capture mode
nor auto-terminate set. -/
def secC3w : Section :=
  ⟨"w", false, [⟨"a", true, false, none, false⟩, ⟨"b", false, true, none, false⟩]⟩

/-- The same section with the non-anchor line's capture-mode and
auto-terminate flags flipped. -/
def secC3w2 : Section :=
  ⟨"w", false, [⟨"a", true, true, none, true⟩, ⟨"b", false, true, none, false⟩]⟩

/-- C3 amended, at a concrete pair of sections differing only in a non-anchor
line's capture-mode and auto-terminate flags: the unit processing is
identical. -/
theorem C3_amended_witness :
    initialState.currentLineIndex < secC3w.script_lines.length ∧
    speakUnit secC3w initialState = speakUnit secC3w2 initialState := by
  refine ⟨by decide, ?_⟩
  refine (C3_amended rfl rfl ?_ ?_ ?_ (by decide) (by decide) (by decide)).1
  · intro k
    rcases k with _ | _ | k <;> rfl
  · intro k
    rcases k with _ | _ | k <;> rfl
  · intro k
    rcases k with _ | _ | k <;> rfl

/-! ### C4 -/

/-- A confirmed PAN image captured by an earlier capture unit. -/
def img1 : CapturedImage := ⟨some "pan", 1, "d1"⟩

/-- A session state with one confirmed PAN image and PAN as the active
capture tag. -/
def c4state : SessionState :=
  { initialState with capturedImages := [img1], currentCaptureType := some "pan" }

/-- C4: the claim says retake() after capture() restores the captured-image
set and only ever removes the most recent image of the active tag, never an
earlier confirmed one.  The code's `findIndex` returns the FIRST matching
index (despite the variable name `lastIndex` and the comment "Remove the last
captured image of this type"), so with a confirmed PAN image already present,
capturing a second PAN image and retaking removes the earlier confirmed image
and keeps the new one: the set ends as [image2], not the original
[image1]. -/
theorem C4_retake_bug_eval :
    c4state.capturedImages = [img1] ∧
    (captureImage 2 "d2" c4state).capturedImages =
      [img1, ⟨some "pan", 2, "d2"⟩] ∧
    (retakeImage (captureImage 2 "d2" c4state)).capturedImages =
      [⟨some "pan", 2, "d2"⟩] := by
  decide

/-! ### C5 -/

/-- A one-line script for driving a recording session. -/
def scriptC5 : Script := ⟨[⟨"s", false, [⟨"a", false, false, none, false⟩]⟩]⟩

/-- A live recording session with one buffered data chunk. -/
def c5rec : SessionState := onDataAvailable 7 (sessionStart scriptC5)

/-- C5 counterexample: invoking start() while already Recording is NOT a
no-op — it clears the buffered chunks (the in-progress recording is
discarded) and restarts narration from the top (the spoken log grows). -/
theorem C5_counterexample :
    c5rec.isRecording = true ∧
    c5rec.recordedChunks = [7] ∧
    (startRecording c5rec).recordedChunks = [] ∧
    (startRecording c5rec).spokenLog = [(0, 0), (0, 0)] := by
  decide

/-- C5 (amended): stop() is idempotent exactly as claimed — stop() while not
Recording is a no-op, stopping twice equals stopping once, and two
consecutive stops finalize exactly one artifact; but start() while Recording
is not guarded in the function itself (only the disabled Start button
prevents it) and is therefore not a no-op. -/
theorem C5_amended (s : SessionState) :
    stopRecording (stopRecording s) = stopRecording s ∧
    (s.isRecording = false → stopRecording s = s) ∧
    (s.mediaRecorder = true → s.isRecording = true →
      (stopRecording s).finalizeCount = s.finalizeCount + 1 ∧
      (stopRecording (stopRecording s)).finalizeCount = s.finalizeCount + 1) := by
  refine ⟨?_, fun h => stopRecording_not_recording h, ?_⟩
  · by_cases hg : (s.mediaRecorder && s.isRecording) = true
    · have h1 : stopRecording s = hideAllOverlays
          { s with isAutoPlaying := false, isRecording := false,
                   videoBlob := some s.recordedChunks,
                   finalizeCount := s.finalizeCount + 1 } := by
        rw [stopRecording, if_pos hg]
      rw [h1]
      exact stopRecording_not_recording rfl
    · have h1 : stopRecording s = s := by rw [stopRecording, if_neg hg]
      rw [h1, h1]
  · intro h1 h2
    have hg : (s.mediaRecorder && s.isRecording) = true := by rw [h1, h2]; rfl
    have hs1 : stopRecording s = hideAllOverlays
        { s with isAutoPlaying := false, isRecording := false,
                 videoBlob := some s.recordedChunks,
                 finalizeCount := s.finalizeCount + 1 } := by
      rw [stopRecording, if_pos hg]
    constructor
    · rw [hs1]
      rfl
    · rw [hs1, stopRecording_not_recording rfl]
      rfl

/-- C5 amended, at a concrete live session: the first stop finalizes one
artifact and the second stop changes nothing. -/
theorem C5_amended_witness :
    c5rec.mediaRecorder = true ∧ c5rec.isRecording = true ∧
    (stopRecording c5rec).finalizeCount = c5rec.finalizeCount + 1 ∧
    stopRecording (stopRecording c5rec) = stopRecording c5rec := by
  refine ⟨by decide, by decide, ?_, (C5_amended c5rec).1⟩
  exact ((C5_amended c5rec).2.2 (by decide) (by decide)).1

/-! ### C6 -/

/-- C6: for every cursor position inside a section, the grouping loop returns
exactly the consecutive lines from the cursor through the first line whose
`group_with_next` is false (or through the section's last line when all
remaining lines have it true): its result is the slice of index pairs
`(line, k)` for `k` from the cursor to the spec anchor `specGroupEnd`; the
anchor stays inside the section, the group's length is the slice length and
never exceeds the lines remaining in the section (so the loop terminates,
visiting each line at most once and never crossing the section boundary —
every visited index lies between the cursor and the section's end). -/
theorem C6_grouping (lines : List Line) (j : Nat) (hj : j < lines.length) :
    collectGroupedLines lines j =
      (List.range' j (specGroupEnd lines j + 1 - j)).map
        (fun k => (lines.getD k defaultLine, k)) ∧
    j ≤ specGroupEnd lines j ∧ specGroupEnd lines j < lines.length ∧
    (collectGroupedLines lines j).length = specGroupEnd lines j + 1 - j ∧
    (collectGroupedLines lines j).length ≤ lines.length - j ∧
    ((collectGroupedLines lines j).map Prod.snd).Nodup ∧
    (∀ q ∈ collectGroupedLines lines j, j ≤ q.2 ∧ q.2 < lines.length) := by
  have h1 := collectGroupedLines_spec hj
  have h2 := specGroupEnd_bounds hj
  refine ⟨h1, h2.1, h2.2, ?_, ?_, ?_, ?_⟩
  · rw [h1, List.length_map, List.length_range']
  · rw [h1, List.length_map, List.length_range']
    omega
  · rw [h1, List.map_map]
    have : (Prod.snd ∘ fun k => (lines.getD k defaultLine, k)) = id := by
      funext k
      rfl
    rw [this, List.map_id]
    exact List.nodup_range' _ _
  · intro q hq
    rw [h1] at hq
    simp only [List.mem_map, List.mem_range'] at hq
    obtain ⟨k, ⟨i, hi, hk⟩, rfl⟩ := hq
    simp only []
    omega

/-- The spec's own grouping example: three lines, the first grouped with the
next. -/
def linesC6 : List Line :=
  [⟨"l1", true, false, none, false⟩,
   ⟨"l2", false, false, none, false⟩,
   ⟨"l3", false, false, none, false⟩]

/-- C6, at the spec's example: at cursor 0 the group is lines 0 and 1. -/
theorem C6_grouping_witness :
    0 < linesC6.length ∧
    (collectGroupedLines linesC6 0).length = specGroupEnd linesC6 0 + 1 - 0 ∧
    specGroupEnd linesC6 0 = 1 := by
  exact ⟨by decide, (C6_grouping linesC6 0 (by decide)).2.2.2.1, by decide⟩

/-! ### C7 -/

/-- C7: under the controller invariant (an outstanding speech callback's
anchor is at or past the cursor, and during auto-play the cursor points at an
existing section — true of every reachable state), every single controller
transition (speech completion, user next, capture next, stop, capture,
retake) moves the cursor pair `(sectionIndex, lineIndex)` lexicographically
forward or not at all and preserves the invariant, and along every event
sequence the cursor is lexicographically non-decreasing and the section index
never decreases, so a section is never re-entered once left. -/
theorem C7_cursor_monotone (s : SessionState) (hInv : Inv s) :
    (∀ e : Event, cursorLe (cursor s) (cursor (step e s)) ∧ Inv (step e s)) ∧
    (∀ es : List Event, cursorLe (cursor s) (cursor (run es s)) ∧
      s.currentSectionIndex ≤ (run es s).currentSectionIndex) := by
  refine ⟨fun e => step_mono_Inv e hInv, fun es => ?_⟩
  have h := run_mono_Inv es s hInv
  exact ⟨h.1, cursorLe_fst h.1⟩

/-- C7, at the freshly loaded page driven by a user click. -/
theorem C7_cursor_monotone_witness :
    cursorLe (cursor initialState)
      (cursor (run [Event.userNext, Event.speechEnd] initialState)) := by
  refine ((C7_cursor_monotone initialState ?_).2 [Event.userNext, Event.speechEnd]).1
  intro p hp
  simp [initialState] at hp

/-! ### C8 -/

/-- The state from which `startRecording` launches the first narration unit
when the script is loaded and the webcam granted: `sessionStart S` is
definitionally `playNextLine (startedState S)`. -/
def startedState (S : Script) : SessionState :=
  { initialState with scriptData := some S, stream := true, mediaRecorder := true,
                      isRecording := true, isAutoPlaying := true }

/-- C8: for any nonempty script with no auto-terminate flag anywhere, the
session started on it and driven by the standard interaction (each utterance
completes, the user presses whichever Next button is shown) narrates exactly
the script's positions in order — the spoken log ends as the full position
enumeration, whose length is `n1 + ... + nk` and which repeats no position,
so each line is narrated exactly once — and then reaches the terminated
state (auto-play off, recording stopped).  Moreover, whenever the line index
reaches the end of the current section, the controller proceeds exactly by
advancing to the next section with line index 0 when one exists, and by
ending auto-play and stopping the recording when none does. -/
theorem C8_total_traversal (S : Script) (h1 : S.sections ≠ [])
    (h2 : NoAutoTerminate S) :
    (∃ m, (cycle^[m] (sessionStart S)).spokenLog = posFrom S 0 0 ∧
      (cycle^[m] (sessionStart S)).isAutoPlaying = false ∧
      (cycle^[m] (sessionStart S)).isRecording = false) ∧
    (posFrom S 0 0).length = totalLines S ∧
    (posFrom S 0 0).Nodup ∧
    (∀ (s : SessionState) (sec : Section), s.scriptData = some S →
      s.isAutoPlaying = true → S.sections[s.currentSectionIndex]? = some sec →
      sec.script_lines.length ≤ s.currentLineIndex →
      (s.currentSectionIndex + 1 < S.sections.length →
        playNextLine s = playNextLine
          { s with currentSectionIndex := s.currentSectionIndex + 1,
                   currentLineIndex := 0 }) ∧
      (S.sections.length ≤ s.currentSectionIndex + 1 →
        playNextLine s = stopRecording (hideAllOverlays
          { s with currentSectionIndex := s.currentSectionIndex + 1,
                   currentLineIndex := 0, isAutoPlaying := false }))) := by
  refine ⟨?_, posFrom_zero_length, posFrom_nodup S 0 0, ?_⟩
  · have h0 : 0 < S.sections.length := List.length_pos.mpr h1
    obtain ⟨m, hm1, hm2, hm3⟩ := walk h2 ((posFrom S 0 0).length + S.sections.length)
      (startedState S) rfl rfl rfl rfl rfl h0 (by simp [startedState, initialState])
    have hsess : sessionStart S = playNextLine (startedState S) := rfl
    refine ⟨m, ?_, ?_, ?_⟩
    · rw [hsess, hm1]
      rfl
    · rw [hsess]
      exact hm2
    · rw [hsess]
      exact hm3
  · intro s sec hS hAP hsec hend
    exact ⟨fun hmore => playNextLine_advance hS hAP hsec hend hmore,
      fun hlast => playNextLine_terminal hS hAP hsec hend hlast⟩

/-- A two-section script exercising grouping, capture mode and an action
tag. -/
def scriptC8w : Script :=
  ⟨[⟨"s0", false,
      [⟨"a", true, false, none, false⟩, ⟨"b", false, false, none, false⟩]⟩,
    ⟨"s1", false,
      [⟨"c", false, true, some "customer_shows_pan", false⟩]⟩]⟩

/-- C8, at a concrete two-section script: some number of interaction cycles
narrates all three lines exactly once and terminates the session. -/
theorem C8_total_traversal_witness :
    scriptC8w.sections ≠ [] ∧ NoAutoTerminate scriptC8w ∧
    ∃ m, (cycle^[m] (sessionStart scriptC8w)).spokenLog = posFrom scriptC8w 0 0 ∧
      (cycle^[m] (sessionStart scriptC8w)).isAutoPlaying = false ∧
      (cycle^[m] (sessionStart scriptC8w)).isRecording = false := by
  exact ⟨by decide, by unfold NoAutoTerminate; decide,
    (C8_total_traversal scriptC8w (by decide) (by unfold NoAutoTerminate; decide)).1⟩

/-! ### C9 -/

/-- A script whose first unit groups two lines, so the unit's anchor is line
1 while the cursor still reads 0 during narration. -/
def scriptC9 : Script :=
  ⟨[⟨"s", false,
    [⟨"a", true, false, none, false⟩, ⟨"b", false, false, none, false⟩]⟩]⟩

/-- The session stopped while the first (grouped) utterance is in flight. -/
def c9stopped : SessionState := stopRecording (sessionStart scriptC9)

/-- C9 counterexample: after an explicit stop, the canceled utterance's
completion callback (which the code's `onerror` handler still invokes) is not
fully ignored — it moves the line cursor from 0 to the group's anchor 1.  It
does start no new narration (the spoken log is unchanged), but the claim that
it "changes neither the cursor nor the session state" is false. -/
theorem C9_counterexample :
    c9stopped.isAutoPlaying = false ∧
    c9stopped.isRecording = false ∧
    c9stopped.currentLineIndex = 0 ∧
    (onSpeechEnd c9stopped).currentLineIndex = 1 ∧
    (onSpeechEnd c9stopped).spokenLog = c9stopped.spokenLog := by
  decide

/-- C9 (amended): an explicit stop in a recording state ends auto-play (while
leaving the pending callback in place, since cancellation cannot keep the
error-path callback from running), and after any state in which auto-play is
off, no narration ever begins again: `playNextLine` is a no-op, and along
every further event sequence — including late speech-completion callbacks —
auto-play stays off, the spoken log and the utterance log never grow, and the
section index never changes.  (The late callback may still move the line
index within the section and re-show overlays, which is what the original
claim missed.) -/
theorem C9_amended (s : SessionState) (h : s.isAutoPlaying = false) :
    playNextLine s = s ∧
    (∀ es : List Event, (run es s).isAutoPlaying = false ∧
      (run es s).spokenLog = s.spokenLog ∧
      (run es s).utterances = s.utterances ∧
      (run es s).currentSectionIndex = s.currentSectionIndex) ∧
    (∀ t : SessionState, t.mediaRecorder = true → t.isRecording = true →
      (stopRecording t).isAutoPlaying = false ∧
      (stopRecording t).pending = t.pending) := by
  refine ⟨playNextLine_not_playing h, fun es => notPlaying_run es s h, ?_⟩
  intro t h1 h2
  have hg : (t.mediaRecorder && t.isRecording) = true := by rw [h1, h2]; rfl
  constructor
  · rw [stopRecording, if_pos hg]
    rfl
  · exact stopRecording_pending t

/-- C9 amended, at the concrete stopped session: a late completion callback
and a redundant stop start no narration. -/
theorem C9_amended_witness :
    (run [Event.speechEnd, Event.stopClick] c9stopped).spokenLog =
      c9stopped.spokenLog ∧
    (run [Event.speechEnd, Event.stopClick] c9stopped).isAutoPlaying = false := by
  have h := (C9_amended c9stopped (by decide)).2.1 [Event.speechEnd, Event.stopClick]
  exact ⟨h.2.1, h.1⟩

/-! ### C10 -/

/-- C10: once the session is not auto-playing (before a session starts, or
after termination by stop or script exhaustion), both the user Next signal
and the capture-flow Next signal are complete no-ops: the handlers return
with the state unchanged, so the cursor is unchanged and no narration
starts. -/
theorem C10_next_noop (s : SessionState) (h : s.isAutoPlaying = false) :
    handleNextQuestion s = s ∧ handleCaptureNext s = s := by
  constructor <;> simp [handleNextQuestion, handleCaptureNext, h]

/-- C10, at the freshly loaded page. -/
theorem C10_next_noop_witness :
    handleNextQuestion initialState = initialState ∧
    handleCaptureNext initialState = initialState :=
  C10_next_noop initialState rfl

end KYC
